import Mathlib

/-!
Verification development for the Veristat TLF Packager
(src/Veristat_TLF_Packager.py).

The Python source is shallowly embedded over `Str := List Char`.
Conventions of the embedding:

* Python strings are `List Char`; string literals enter through
  `String.data`.
* Python's `str.lower` / `str.isalpha` are modelled on ASCII, which covers
  every character class the source's regexes test (`[a-z]`, `[A-Z0-9]`,
  `\d`, `\s`, ...).
* `re.search` / `re.match` of the concrete patterns appearing in the source
  are compiled by hand into leftmost-match scanners with greedy
  (maximal-munch) semantics; for each pattern in the source, maximal munch
  coincides with the backtracking semantics because no character can both
  extend a greedy atom and start the following atom.
* Floating point geometry is modelled with `ℚ`; the only float comparison a
  claim depends on is `alpha_count / len(c) < 0.3`, where the rational and
  double results agree for every line shorter than 10^15 characters.
* The externally measured text width `fitz.get_text_length` is an opaque
  parameter `tl : Str → ℚ → ℚ` (text, fontsize).
* A caught-exception path (bad file read) is modelled by an `Option` input:
  `none` stands for the input whose read raised.
* Recursions that consume a computed number of characters carry an explicit
  fuel argument (always called with fuel ≥ the string length, so the fuel
  never runs out); this keeps every definition structurally recursive and
  kernel-reducible.
-/

namespace TLFPack

/-- Python strings are modelled as lists of characters. -/
abbrev Str := List Char

/-- Python's `\s` / `str.strip()` whitespace set (ASCII part). -/
def isPySpace (c : Char) : Bool :=
  c == ' ' || c == '\t' || c == '\n' || c == '\r' || c == '\x0b' || c == '\x0c'

/-- ASCII lowercase letter, the class `[a-z]`. -/
def isLowerC (c : Char) : Bool := 'a' ≤ c && c ≤ 'z'

/-- ASCII uppercase letter, the class `[A-Z]`. -/
def isUpperC (c : Char) : Bool := 'A' ≤ c && c ≤ 'Z'

/-- ASCII letter; models Python's `str.isalpha` and the class `[a-zA-Z]`. -/
def isAlphaC (c : Char) : Bool := isLowerC c || isUpperC c

/-- Decimal digit, the class `\d`. -/
def isDigitC (c : Char) : Bool := '0' ≤ c && c ≤ '9'

/-- The class `[A-Za-z0-9]`. -/
def isAlnumC (c : Char) : Bool := isAlphaC c || isDigitC c

/-- Regex word character `\w` (used for the `\b` boundary): `[a-zA-Z0-9_]`. -/
def isWordC (c : Char) : Bool := isAlnumC c || c == '_'

/-- Python `str.lower`, modelled on ASCII. -/
def lowerS (s : Str) : Str := s.map Char.toLower

/-- Drop trailing whitespace (helper for `strip`). -/
def stripEndWs (s : Str) : Str := (s.reverse.dropWhile isPySpace).reverse

/-- Python `str.strip()` with no arguments. -/
def strip (s : Str) : Str := stripEndWs (s.dropWhile isPySpace)

/-- Python `str.strip(cs)`: drop the given characters from both ends. -/
def stripSet (cs : Str) (s : Str) : Str :=
  let inSet : Char → Bool := fun c => cs.contains c
  ((s.dropWhile inSet).reverse.dropWhile inSet).reverse

/-- Does `s` start with `pat` (case-sensitive literal match). -/
def startsWithS : Str → Str → Bool
  | _, [] => true
  | [], _ :: _ => false
  | a :: as, b :: bs => a == b && startsWithS as bs

/-- Does `s` start with `pat`, comparing case-insensitively (ASCII). -/
def startsWithCI : Str → Str → Bool
  | _, [] => true
  | [], _ :: _ => false
  | a :: as, b :: bs => a.toLower == b.toLower && startsWithCI as bs

/-- Python's `pat in hay` substring test. -/
def containsSub (pat : Str) : Str → Bool
  | [] => startsWithS [] pat
  | c :: rest => startsWithS (c :: rest) pat || containsSub pat rest

/-- Unanchored search: does the position matcher `f` accept at some
suffix of the string (Python `re.search` with a boolean result). -/
def existsAt (f : Str → Bool) : Str → Bool
  | [] => f []
  | c :: rest => f (c :: rest) || existsAt f rest

/-- Unanchored search returning the first (leftmost) hit of the position
matcher `f` (Python `re.search` keeping the match object). -/
def pySearchO {α : Type} (f : Str → Option α) : Str → Option α
  | [] => f []
  | c :: rest =>
    match f (c :: rest) with
    | some a => some a
    | none => pySearchO f rest

/-- Length of the leading whitespace run (`\s*` / `\s+`). -/
def wsRun (s : Str) : Nat := (s.takeWhile isPySpace).length

/-- Length of the leading digit run (`\d*` / `\d+`). -/
def digRun (s : Str) : Nat := (s.takeWhile isDigitC).length

/-- Length of the leading `[A-Za-z0-9]` run. -/
def alnumRun (s : Str) : Nat := (s.takeWhile isAlnumC).length

/-- Consume a literal, returning the rest of the string on success. -/
def pLit (pat : Str) (s : Str) : Option Str :=
  if startsWithS s pat then some (s.drop pat.length) else none

/-- Consume `\s+` (at least one whitespace character, greedily). -/
def pWs1 (s : Str) : Option Str :=
  let w := wsRun s
  if w = 0 then none else some (s.drop w)

/-- Consume `\s*` (any whitespace, greedily). -/
def pWs0 (s : Str) : Option Str := some (s.drop (wsRun s))

/-- Consume `\d+` (at least one digit, greedily). -/
def pDig1 (s : Str) : Option Str :=
  let d := digRun s
  if d = 0 then none else some (s.drop d)

/-- Consume exactly `n` digits. -/
def pDigN (n : Nat) (s : Str) : Option Str :=
  if n ≤ s.length ∧ (s.take n).all isDigitC then some (s.drop n) else none

/-- Consume one date separator: a dash or a forward slash. -/
def pSep : Str → Option Str
  | '-' :: r => some r
  | '/' :: r => some r
  | _ => none

/-- Numeric value of a digit string (Python `int`). -/
def digitsToNat (s : Str) : Nat :=
  s.foldl (fun a c => a * 10 + (c.toNat - 48)) 0

/-- Decimal digits of `n`, most significant first (fuelled). -/
def natDigitsAux : Nat → Nat → Str
  | 0, _ => []
  | _ + 1, 0 => []
  | fuel + 1, n => natDigitsAux fuel (n / 10) ++ [Char.ofNat (n % 10 + 48)]

/-- Python `str` applied to a natural number. -/
def natToChars (n : Nat) : Str :=
  if n = 0 then ['0'] else natDigitsAux (n + 1) n

/-- Python `str` applied to an integer. -/
def intToChars (z : Int) : Str :=
  if z < 0 then '-' :: natToChars z.natAbs else natToChars z.natAbs

/-! ### Noise classifier (`is_footer_content`) -/

/-- Position matcher for `page\s+\d+`. -/
def patPageNum (s : Str) : Bool :=
  (pLit "page".data s >>= pWs1 >>= pDig1).isSome

/-- Position matcher for `\d+\s+of\s+\d+`. -/
def patXofY (s : Str) : Bool :=
  (pDig1 s >>= pWs1 >>= pLit "of".data >>= pWs1 >>= pDig1).isSome

/-- Position matcher for `version\s+[\d\.]+`. -/
def patVersion (s : Str) : Bool :=
  (pLit "version".data s >>= pWs1 >>= fun r =>
    let d := (r.takeWhile (fun c => isDigitC c || c == '.')).length
    if d = 0 then none else some (r.drop d)).isSome

/-- Position matcher for the date pattern with 1-2, 1-2 and 2-4 digit
fields separated by `-` or `/` (existence semantics). -/
def patDate (s : Str) : Bool :=
  [1, 2].any fun a =>
    [1, 2].any fun b =>
      [2, 3, 4].any fun c =>
        (pDigN a s >>= pSep >>= pDigN b >>= pSep >>= pDigN c).isSome

/-- Position matcher for `word1\s+word2` (two literals joined by `\s+`). -/
def patTwoWords (w1 w2 : Str) (s : Str) : Bool :=
  (pLit w1 s >>= pWs1 >>= pLit w2).isSome

/-- Position matcher for `word1\s+word2\s+word3`. -/
def patThreeWords (w1 w2 w3 : Str) (s : Str) : Bool :=
  (pLit w1 s >>= pWs1 >>= pLit w2 >>= pWs1 >>= pLit w3).isSome

/-- Position matcher for `word\s*:` (metadata labels). -/
def patLabel (w : Str) (s : Str) : Bool :=
  (pLit w s >>= pWs0 >>= pLit ":".data).isSome

/-- All searched footer regex patterns of `is_footer_content`, applied to
the lowercased stripped text (anchored patterns are checked at the start
only; the rest are unanchored searches). -/
def footerPatternsHit (t : Str) : Bool :=
  existsAt patPageNum t ||
  existsAt patXofY t ||
  containsSub "confidential".data t ||
  containsSub "proprietary".data t ||
  containsSub "draft".data t ||
  containsSub "final".data t ||
  existsAt patVersion t ||
  existsAt patDate t ||
  (!t.isEmpty && t.all isDigitC) ||
  existsAt (fun s => (pLit "file".data s >>= pWs0 >>= pLit "name".data >>=
      pWs0 >>= pLit ":".data).isSome) t ||
  (match t with
   | a :: ':' :: '\\' :: _ => isLowerC a
   | _ => false) ||
  (match t with
   | '/' :: a :: _ => isLowerC a
   | _ => false) ||
  existsAt (patLabel "author".data) t ||
  existsAt (patLabel "date".data) t ||
  existsAt (patLabel "time".data) t ||
  existsAt (patTwoWords "printed".data "on".data) t ||
  existsAt (patTwoWords "generated".data "on".data) t ||
  existsAt (patTwoWords "last".data "modified".data) t ||
  containsSub "©".data t ||
  containsSub "copyright".data t ||
  existsAt (patThreeWords "all".data "rights".data "reserved".data) t ||
  containsSub "sponsor".data t ||
  existsAt (patTwoWords "protocol".data "number".data) t ||
  existsAt (patTwoWords "study".data "code".data) t ||
  containsSub "cdisc".data t ||
  existsAt (patTwoWords "sas".data "output".data) t ||
  existsAt (patLabel "program".data) t ||
  existsAt (patLabel "output".data) t

/-- `is_footer_content`: detect if text is likely footer content.  The
regex patterns run over `text.lower().strip()`; the length and
letter-count checks mirror the source exactly (note the last check counts
letters over the unstripped text). -/
def is_footer_content (text : Str) : Bool :=
  let textLower := strip (lowerS text)
  footerPatternsHit textLower ||
  (strip text).length < 3 ||
  ((strip text).count ' ' == 0 && (strip text).length > 30) ||
  (text.length > 8 && (text.filter isAlphaC).length < 3)

/-! ### `filter_note_from_line` and the title-candidate validator -/

/-- Position matcher for `Note\s*:` (case-insensitive), without the `\b`
boundary (checked by the caller). -/
def noteAt (s : Str) : Bool :=
  startsWithCI s "Note".data &&
  (match (s.drop 4).drop (wsRun (s.drop 4)) with
   | ':' :: _ => true
   | _ => false)

/-- Index of the first match of `\bNote\s*:` (the split point of
`re.split`); `prevIsWord` tracks the character before the current
position for the `\b` word boundary. -/
def findNoteSplitAux (prevIsWord : Bool) : Str → Option Nat
  | [] => none
  | c :: rest =>
    if !prevIsWord && noteAt (c :: rest) then some 0
    else (findNoteSplitAux (isWordC c) rest).map (· + 1)

/-- `filter_note_from_line`: remove the trailing `Note:` segment
(`re.split(r'\bNote\s*:', text, flags=IGNORECASE)[0].strip()`). -/
def filter_note_from_line (text : Str) : Str :=
  strip (match findNoteSplitAux false text with
         | some i => text.take i
         | none => text)

/-- The `$` anchor applied after `.*` (no DOTALL): the remaining text may
contain no newline at all, or exactly one trailing newline. -/
def dollarTailOk (r : Str) : Bool :=
  !r.contains '\n' ||
  (r.getLast? == some '\n' && !r.dropLast.contains '\n')

/-- Anchored matcher for `^\\?\*.*$` (control-character lines). -/
def starCtrl : Str → Bool
  | '\\' :: '*' :: r => dollarTailOk r
  | '*' :: r => dollarTailOk r
  | _ => false

/-- Anchored matcher for `^[A-Z0-9\\\*]+$` (all caps/numbers lines). -/
def allCapsNum (c : Str) : Bool :=
  let cls : Char → Bool := fun ch => isUpperC ch || isDigitC ch || ch == '\\' || ch == '*'
  let body := if c.getLast? == some '\n' then c.dropLast else c
  !body.isEmpty && body.all cls

/-- Position matcher for a bracketed reference `\[\d+\]`. -/
def patBracketRef (s : Str) : Bool :=
  (pLit "[".data s >>= pDig1 >>= pLit "]".data).isSome

/-- `valid_title_candidate`: heuristic filter to accept/reject a line as a
plausible title.  Checks run in source order; the alpha-ratio comparison
`alpha_count / len(c) < 0.3` is modelled as `alpha * 10 < len * 3`. -/
def valid_title_candidate (candidate : Str) : Bool :=
  let c := strip candidate
  if c.isEmpty then false
  else if is_footer_content c then false
  else if startsWithS (lowerS c) "note:".data then false
  else if c.count '.' > 2 then false
  else if existsAt patBracketRef c then false
  else if starCtrl c then false
  else if allCapsNum c then false
  else if c.length > 5 && (c.filter isAlphaC).length * 10 < c.length * 3 then false
  else true

/-! ### The TLF identifier pattern

`(?:(Table|Listing|Figure)\s+)?(Appendix)\s+\d+(?:\.\d+)*[A-Za-z0-9]*`
`|(Table|Listing|Figure)\s+\d+(?:\.\d+)*[A-Za-z0-9]*`, case-insensitive.
The matchers below return the length of `group(0)` when the pattern
matches at the start of the given suffix. -/

/-- Match one category word `(Table|Listing|Figure)` case-insensitively,
returning its length. -/
def matchCat (s : Str) : Option Nat :=
  if startsWithCI s "Table".data then some 5
  else if startsWithCI s "Listing".data then some 7
  else if startsWithCI s "Figure".data then some 6
  else none

/-- Length of `(?:\.\d+)*`, consumed greedily (fuelled; each step consumes
at least two characters). -/
def dotGroupsLen : Nat → Str → Nat
  | 0, _ => 0
  | fuel + 1, s =>
    match s with
    | '.' :: rest =>
      let d := digRun rest
      if d = 0 then 0 else 1 + d + dotGroupsLen fuel (rest.drop d)
    | _ => 0

/-- Length of `\d+(?:\.\d+)*[A-Za-z0-9]*` at the start of `s`. -/
def numTailLen (s : Str) : Option Nat :=
  let d := digRun s
  if d = 0 then none
  else
    let rest := s.drop d
    let g := dotGroupsLen rest.length rest
    some (d + g + alnumRun (rest.drop g))

/-- Length of `\s+\d+(?:\.\d+)*[A-Za-z0-9]*` at the start of `s`. -/
def afterKeyNum (s : Str) : Option Nat :=
  let w := wsRun s
  if w = 0 then none else (numTailLen (s.drop w)).map (w + ·)

/-- Length of `Appendix\s+\d+(?:\.\d+)*[A-Za-z0-9]*` at the start of `s`. -/
def appendixTailLen (s : Str) : Option Nat :=
  if startsWithCI s "Appendix".data then (afterKeyNum (s.drop 8)).map (8 + ·)
  else none

/-- First alternative: optional category-word prefix, then the Appendix
tail (the regex prefers the prefix when it is present). -/
def alt1Len (s : Str) : Option Nat :=
  (match matchCat s with
   | some cl =>
     let w := wsRun (s.drop cl)
     if w = 0 then none
     else (appendixTailLen (s.drop (cl + w))).map (cl + w + ·)
   | none => none).orElse (fun _ => appendixTailLen s)

/-- Second alternative: category word followed directly by a number. -/
def alt2Len (s : Str) : Option Nat :=
  match matchCat s with
  | some cl => (afterKeyNum (s.drop cl)).map (cl + ·)
  | none => none

/-- Match of the full title pattern at the start of `s` (the first
alternative is preferred, as in Python's `re`).  Models `re.match`. -/
def matchTitleAt (s : Str) : Option Nat :=
  (alt1Len s).orElse (fun _ => alt2Len s)

/-- Leftmost match of the title pattern: `re.search` returning the offset
`k` of the match and the length `m` of `group(0)`. -/
def searchTitle : Str → Option (Nat × Nat)
  | [] => none
  | c :: rest =>
    match matchTitleAt (c :: rest) with
    | some m => some (0, m)
    | none => (searchTitle rest).map (fun km => (km.1 + 1, km.2))

/-! ### Title/bookmark builder cores of the three extractors -/

/-- The characters stripped from a same-line remainder:
`.strip(" :–-")` (space, colon, en dash, hyphen). -/
def sepChars : Str := [' ', ':', '–', '-']

/-- Compose the bookmark from the three titles:
`title1`, plus `": " + title2` if present, plus `" - " + title3`. -/
def mkBookmark (t1 t2 t3 : Str) : Str :=
  t1 ++ (if t2.isEmpty then [] else ": ".data ++ t2) ++
        (if t3.isEmpty then [] else " - ".data ++ t3)

/-- Title-2 candidate from the same-line remainder after the match:
`line[len(match.group(0)):].strip(" :–-")` passed through
`filter_note_from_line`. -/
def remainderOf (line : Str) (m : Nat) : Str :=
  filter_note_from_line (stripSet sepChars (line.drop m))

/-- Title-2/Title-3 candidate from a following line (RTF and PDF style):
`filter_note_from_line`, validate, then `strip`. -/
def lookaheadTitle (cand : Str) : Str :=
  let clean := filter_note_from_line cand
  if valid_title_candidate clean then strip clean else []

/-- The RTF matching loop (`for i, line in enumerate(header_lines)` in
`extract_titles_from_rtf`): scan for the first line with a `re.search`
match of the title pattern and build `(title1, title2, title3)` from it
and the two following lines. -/
def rtfMatchLoop : List Str → Option (Str × Str × Str)
  | [] => none
  | line :: rest =>
    match searchTitle line with
    | none => rtfMatchLoop rest
    | some (k, m) =>
      let title1 := strip ((line.drop k).take m)
      let rem := remainderOf line m
      let t2a := if !rem.isEmpty && valid_title_candidate rem then rem else []
      let title2 := if !t2a.isEmpty then t2a
                    else match rest.head? with
                         | some nxt => lookaheadTitle nxt
                         | none => []
      let title3 := match rest.get? 1 with
                    | some nxt2 => lookaheadTitle nxt2
                    | none => []
      some (title1, title2, title3)

/-- `extract_titles_from_rtf` from the point where the cleaned header
lines are in hand: filter footer lines, run the matching loop, and
assemble the bookmark (falling back to the bare file name). -/
def rtfCore (headerLines : List Str) (basename : Str) : Str × Str × Str × Str :=
  let hl := headerLines.filter (fun l => !is_footer_content l)
  match rtfMatchLoop hl with
  | some (t1, t2, t3) =>
    if !t1.isEmpty then (t1, t2, t3, mkBookmark t1 t2 t3)
    else ([], [], [], basename)
  | none => ([], [], [], basename)

/-- The PDF matching loop (`for i, line in enumerate(lines[:20])` in
`extract_title_from_pdf`): identical per-match logic to the RTF loop, but
the lookahead for Title-2/3 indexes the full (unfiltered) line list. -/
def pdfMatchLoop (all : List Str) : List (Nat × Str) → Option (Str × Str × Str)
  | [] => none
  | (i, line) :: rest =>
    match searchTitle line with
    | none => pdfMatchLoop all rest
    | some (k, m) =>
      let title1 := strip ((line.drop k).take m)
      let rem := remainderOf line m
      let t2a := if !rem.isEmpty && valid_title_candidate rem then rem else []
      let title2 := if !t2a.isEmpty then t2a
                    else match all.get? (i + 1) with
                         | some nxt => lookaheadTitle nxt
                         | none => []
      let title3 := match all.get? (i + 2) with
                    | some nxt2 => lookaheadTitle nxt2
                    | none => []
      some (title1, title2, title3)

/-- The PDF fallback (`for idx, line in enumerate(lines[:3])`): assign each
validator-passing line, through `filter_note_from_line`, to the first
still-empty title slot. -/
def pdfFallback : List Str → Str × Str × Str → Str × Str × Str
  | [], st => st
  | line :: rest, (t1, t2, t3) =>
    if valid_title_candidate line then
      if t1.isEmpty then pdfFallback rest (filter_note_from_line line, t2, t3)
      else if t2.isEmpty then pdfFallback rest (t1, filter_note_from_line line, t3)
      else if t3.isEmpty then pdfFallback rest (t1, t2, filter_note_from_line line)
      else pdfFallback rest (t1, t2, t3)
    else pdfFallback rest (t1, t2, t3)

/-- Bookmark assembly shared by the PDF and DOCX extractors: the composite
bookmark, or the bare file name when it strips to empty. -/
def bookmarkOrBasename (t1 t2 t3 basename : Str) : Str :=
  let bm := mkBookmark t1 t2 t3
  if (strip bm).isEmpty then basename else bm

/-- `[line.strip() for line in text.splitlines() if line.strip()]`. -/
def pdfLines (rawLines : List Str) : List Str :=
  (rawLines.filter (fun l => !(strip l).isEmpty)).map strip

/-- `extract_title_from_pdf` from the point where the first page's lines
are in hand (`text.splitlines()`); `none` models a read that raised. -/
def pdfCore (rawLines : List Str) (basename : Str) : Str × Str × Str × Str :=
  let lines := pdfLines rawLines
  let st :=
    match pdfMatchLoop lines ((lines.take 20).enum) with
    | some t => t
    | none => ([], [], [])
  let st2 := if st.1.isEmpty then pdfFallback (lines.take 3) st else st
  (st2.1, st2.2.1, st2.2.2, bookmarkOrBasename st2.1 st2.2.1 st2.2.2 basename)

/-- A DOCX matching pass (`re.match`, i.e. anchored at the start of the
line; raw lookahead lines are used for Title-2/3 with no
`filter_note_from_line` and no re-strip). -/
def docxMatchLoop (all : List Str) : List (Nat × Str) → Option (Str × Str × Str)
  | [] => none
  | (i, line) :: rest =>
    match matchTitleAt line with
    | none => docxMatchLoop all rest
    | some m =>
      let title1 := strip (line.take m)
      let rem := remainderOf line m
      let t2a := if !rem.isEmpty && valid_title_candidate rem then rem else []
      let title2 := if !t2a.isEmpty then t2a
                    else match all.get? (i + 1) with
                         | some nxt => if valid_title_candidate nxt then nxt else []
                         | none => []
      let title3 := match all.get? (i + 2) with
                    | some nxt2 => if valid_title_candidate nxt2 then nxt2 else []
                    | none => []
      some (title1, title2, title3)

/-- The DOCX fallback over `all_lines[:15]`: assign the first up-to-three
validator-passing lines (via `filter_note_from_line`) to the title slots,
stopping after the third. -/
def docxFallback : List Str → Nat → Str × Str × Str → Str × Str × Str
  | [], _, st => st
  | line :: rest, found, (t1, t2, t3) =>
    if valid_title_candidate line then
      let found2 := found + 1
      let st2 :=
        if t1.isEmpty then (filter_note_from_line line, t2, t3)
        else if t2.isEmpty then (t1, filter_note_from_line line, t3)
        else if t3.isEmpty then (t1, t2, filter_note_from_line line)
        else (t1, t2, t3)
      if found2 = 3 then st2 else docxFallback rest found2 st2
    else docxFallback rest found (t1, t2, t3)

/-- Stripped non-empty texts with footer content filtered out (the `paras`
and `body_paras` preparation of `extract_title_from_docx`). -/
def docxParas (texts : List Str) : List Str :=
  ((texts.map strip).filter (fun p => !p.isEmpty)).filter
    (fun p => !is_footer_content p)

/-- `extract_title_from_docx` from the point where the header paragraph
texts and the body paragraph/table-cell texts are in hand. -/
def docxCore (headerTexts bodyTexts : List Str) (basename : Str) :
    Str × Str × Str × Str :=
  let paras := docxParas headerTexts
  let st1 :=
    match docxMatchLoop paras ((paras.take 10).enum) with
    | some t => t
    | none => ([], [], [])
  let bodyParas := docxParas bodyTexts
  let st2 :=
    if st1.1.isEmpty then
      match docxMatchLoop bodyParas ((bodyParas.take 15).enum) with
      | some t => t
      | none => ([], [], [])
    else st1
  let st3 :=
    if st2.1.isEmpty then docxFallback ((paras ++ bodyParas).take 15) 0 st2
    else st2
  (st3.1, st3.2.1, st3.2.2, bookmarkOrBasename st3.1 st3.2.1 st3.2.2 basename)

/-! ### RTF header pipeline
(`extract_groups_from_rtf_header`, `rtf_group_to_text`,
`extract_header_lines_with_tablepattern`).  The header is located with
`re.search(r'(\\header[lr]?)(.+?)(\\sectd|$)', rtf_text, re.DOTALL)`: the
lazy `(.+?)` stops at the first `\sectd`, otherwise at `$` (end of text,
or just before one trailing newline). -/

/-- Can the lazy group stop here: at `\sectd`, at the end, or just before
a single trailing newline (the `$` anchor). -/
def headerStop (u : Str) : Bool :=
  startsWithS u "\\sectd".data || u.isEmpty || u == ['\n']

/-- Number of further characters the lazy `(.+?)` consumes after its
mandatory first character. -/
def headerLazyAux : Str → Nat
  | [] => 0
  | c :: r => if headerStop (c :: r) then 0 else 1 + headerLazyAux r

/-- The lazy `(.+?)` group: shortest non-empty prefix whose continuation
satisfies the stop condition; `none` when the text is empty. -/
def headerLazy : Str → Option Str
  | [] => none
  | c :: r => some ((c :: r).take (1 + headerLazyAux r))

/-- Match the header pattern at the start of `s`, returning `group(2)`:
consume `\header`, then try the optional `l`/`r` (preferring to take it,
backtracking when nothing is left for the lazy group). -/
def headerMatchAt (s : Str) : Option Str :=
  if startsWithS s "\\header".data then
    let after := s.drop 7
    match after with
    | c :: rest =>
      if c == 'l' || c == 'r' then
        match headerLazy rest with
        | some g => some g
        | none => headerLazy after
      else headerLazy after
    | [] => none
  else none

/-- The depth-tracked brace scanner collecting top-level groups
(depth is an integer, as unmatched closers drive it negative). -/
def braceGo : Str → Int → Str → List Str → List Str
  | [], _, _, acc => acc
  | '\x7b' :: r, depth, buf, acc =>
    let buf2 := (if depth = 0 then [] else buf) ++ ['\x7b']
    braceGo r (depth + 1) buf2 acc
  | '\x7d' :: r, depth, buf, acc =>
    let buf2 := buf ++ ['\x7d']
    let d2 := depth - 1
    if d2 = 0 && !buf2.isEmpty then braceGo r d2 [] (acc ++ [buf2])
    else braceGo r d2 buf2 acc
  | c :: r, depth, buf, acc =>
    if depth > 0 then braceGo r depth (buf ++ [c]) acc
    else braceGo r depth buf acc

/-- `extract_groups_from_rtf_header`: locate the header block and collect
its balanced top-level brace groups. -/
def extract_groups_from_rtf_header (rtfText : Str) : List Str :=
  match pySearchO headerMatchAt rtfText with
  | some headerText => braceGo headerText 0 [] []
  | none => []

/-- Python `str.replace(pat, rep)`: all non-overlapping occurrences, left
to right (fuelled on the remaining length). -/
def replaceAllF : Nat → Str → Str → Str → Str
  | 0, _, _, s => s
  | fuel + 1, pat, rep, s =>
    match s with
    | [] => []
    | c :: rest =>
      if startsWithS (c :: rest) pat && !pat.isEmpty then
        rep ++ replaceAllF fuel pat rep ((c :: rest).drop pat.length)
      else c :: replaceAllF fuel pat rep rest

/-- Python `str.replace`. -/
def pyReplace (s pat rep : Str) : Str := replaceAllF s.length pat rep s

/-- Left-to-right deletion of `\\[a-z]+\d*[\s]?|{|}` (`re.sub` with empty
replacement; lowercase control words only, one optional trailing
whitespace character). -/
def rtfSub1 : Nat → Str → Str
  | 0, s => s
  | fuel + 1, s =>
    match s with
    | [] => []
    | c :: rest =>
      if c == '\\' && (match rest with | d :: _ => isLowerC d | [] => false) then
        let a := (rest.takeWhile isLowerC).length
        let r1 := rest.drop a
        let d := (r1.takeWhile isDigitC).length
        let r2 := r1.drop d
        let w := if (match r2 with | e :: _ => isPySpace e | [] => false) then 1 else 0
        rtfSub1 fuel (r2.drop w)
      else if c == '\x7b' || c == '\x7d' then rtfSub1 fuel rest
      else c :: rtfSub1 fuel rest

/-- Left-to-right deletion of `(cellx\d+|x\d+)` (`re.sub` with empty
replacement; the first alternative is preferred). -/
def rtfSub2 : Nat → Str → Str
  | 0, s => s
  | fuel + 1, s =>
    match s with
    | [] => []
    | c :: rest =>
      if startsWithS (c :: rest) "cellx".data && digRun ((c :: rest).drop 5) > 0 then
        rtfSub2 fuel ((c :: rest).drop (5 + digRun ((c :: rest).drop 5)))
      else if c == 'x' && digRun rest > 0 then
        rtfSub2 fuel (rest.drop (digRun rest))
      else c :: rtfSub2 fuel rest

/-- `re.sub(r'\n+', '\n', ...)`: collapse newline runs. -/
def collapseNL : Bool → Str → Str
  | _, [] => []
  | prevNL, c :: r =>
    if c == '\n' then
      if prevNL then collapseNL true r else '\n' :: collapseNL true r
    else c :: collapseNL false r

/-- Python `str.splitlines` (the text-mode read normalizes line endings,
so only `\n` occurs). -/
def splitNLGo (cur : Str) : Str → List Str
  | [] => [cur.reverse]
  | '\n' :: r => cur.reverse :: (match r with | [] => [] | _ :: _ => splitNLGo [] r)
  | c :: r => splitNLGo (c :: cur) r

/-- Python `str.splitlines`. -/
def pySplitlines : Str → List Str
  | [] => []
  | c :: r => splitNLGo [] (c :: r)

/-- `re.sub(r'^[-: ]+|[-: ]+$', '', l)`: drop leading and trailing runs of
dash, colon and space. -/
def trimSep (l : Str) : Str := stripSet "-: ".data l

/-- `rtf_group_to_text`: strip RTF control words and convert a header
group to plain text lines. -/
def rtf_group_to_text (group : Str) : List Str :=
  let g1 := pyReplace group "\\cell".data "\n".data
  let g2 := pyReplace g1 "\\row".data "\n".data
  let t1 := rtfSub1 g2.length g2
  let t2 := rtfSub2 t1.length t1
  let t3 := collapseNL false t2
  ((pySplitlines t3).filter (fun l => !(strip l).isEmpty)).map
    (fun l => trimSep (strip l))

/-- `extract_header_lines_with_tablepattern`: cleaned header lines of an
RTF file; `none` models a read that raised (the except branch returns the
empty list). -/
def extract_header_lines_with_tablepattern (rtfText : Option Str) : List Str :=
  match rtfText with
  | none => []
  | some text => ((extract_groups_from_rtf_header text).map rtf_group_to_text).flatten

/-- `extract_titles_from_rtf` for a whole file. -/
def extract_titles_from_rtf (rtfText : Option Str) (basename : Str) :
    Str × Str × Str × Str :=
  rtfCore (extract_header_lines_with_tablepattern rtfText) basename

/-- `extract_title_from_pdf` for a whole file; `none` models an open/read
that raised (the except branch). -/
def extract_title_from_pdf (page1Lines : Option (List Str)) (basename : Str) :
    Str × Str × Str × Str :=
  match page1Lines with
  | none => ([], [], [], basename)
  | some raw => pdfCore raw basename

/-- `extract_title_from_docx` for a whole file; `none` models an open/read
that raised (the except branch). -/
def extract_title_from_docx (content : Option (List Str × List Str))
    (basename : Str) : Str × Str × Str × Str :=
  match content with
  | none => ([], [], [], basename)
  | some (headerTexts, bodyTexts) => docxCore headerTexts bodyTexts basename

/-! ### Sort-key deriver (`parse_sort_key`) -/

/-- The normalized text `parse_sort_key` works on: lowercase, leading
non-letters removed (`re.sub(r'^[^a-zA-Z]*', '', text)`). -/
def sortKeyText (bookmark : Str) : Str :=
  (lowerS bookmark).dropWhile (fun c => !isAlphaC c)

/-- Position matcher for `appendix\s*(\d+)`, returning `group(1)` as a
number. -/
def appendixNumAt (s : Str) : Option Nat :=
  (pLit "appendix".data s >>= pWs0).bind fun r =>
    let d := digRun r
    if d = 0 then none else some (digitsToNat (r.take d))

/-- Position matcher for `(\d+(\.\d+)*)`, returning the dot-separated
numbers of `group(1)` (fuelled tail collector). -/
def dotNumsAux : Nat → Str → List Nat
  | 0, _ => []
  | fuel + 1, s =>
    match s with
    | '.' :: r =>
      let d := digRun r
      if d = 0 then [] else digitsToNat (r.take d) :: dotNumsAux fuel (r.drop d)
    | _ => []

/-- Position matcher for `(\d+(\.\d+)*)`. -/
def numSeqAt (s : Str) : Option (List Nat) :=
  let d := digRun s
  if d = 0 then none
  else some (digitsToNat (s.take d) :: dotNumsAux (s.drop d).length (s.drop d))

/-- `int(x) for x in match.group(1).split('.')` of the first number in the
text, or `[0]` when there is none. -/
def numPathOf (text : Str) : List Nat :=
  match pySearchO numSeqAt text with
  | some l => l
  | none => [0]

/-- `parse_sort_key`: category rank and numeric path of a bookmark. -/
def parse_sort_key (bookmark : Str) : Nat × List Nat :=
  let text := sortKeyText bookmark
  if containsSub "appendix".data text then
    match pySearchO appendixNumAt text with
    | some n => (3, [n])
    | none => (3, [9999])
  else if containsSub "table".data text then (0, numPathOf text)
  else if containsSub "listing".data text then (1, numPathOf text)
  else if containsSub "figure".data text then (2, numPathOf text)
  else (99, [0])

/-- Python list `<` (lexicographic, a strict prefix is smaller). -/
def listLtPy : List Nat → List Nat → Bool
  | [], [] => false
  | [], _ :: _ => true
  | _ :: _, [] => false
  | a :: as, b :: bs =>
    if a < b then true else if b < a then false else listLtPy as bs

/-- Python tuple `<` on `(category_rank, numeric_path)` sort keys. -/
def keyLt (a b : Nat × List Nat) : Bool :=
  decide (a.1 < b.1) || (a.1 == b.1 && listLtPy a.2 b.2)

/-! ### Folder rescan (`refresh_folder`) -/

/-- One row of the review table:
`[include, ftype, fname, title1, title2, title3, bookmark]`. -/
structure FileRow where
  inc : Bool
  ftype : Str
  fname : Str
  t1 : Str
  t2 : Str
  t3 : Str
  bm : Str
deriving DecidableEq

/-- The `(row[1], row[2])` key a row is tracked by. -/
def rowKey (r : FileRow) : Str × Str := (r.ftype, r.fname)

/-- The in-place deletion loop of `refresh_folder` (`while i < len: if key
not in fileset: del ... else: i += 1`). -/
def removeMissing (fileset : List (Str × Str)) : List FileRow → List FileRow
  | [] => []
  | r :: rest =>
    if rowKey r ∈ fileset then r :: removeMissing fileset rest
    else removeMissing fileset rest

/-- A new row appended for a newly discovered file (include defaults to
`True`, titles from the matching extractor). -/
def mkRow (k : Str × Str) (t : Str × Str × Str × Str) : FileRow :=
  ⟨true, k.1, k.2, t.1, t.2.1, t.2.2.1, t.2.2.2⟩

/-- `refresh_folder` on the table state: drop rows whose file disappeared,
then append one fresh row per file not previously in the table (keys are
compared against the pre-removal key set, as in the source). -/
def refresh_folder (tableData : List FileRow) (fileList : List (Str × Str))
    (extract : Str × Str → Str × Str × Str × Str) : List FileRow :=
  let existingKeys := tableData.map rowKey
  let kept := removeMissing fileList tableData
  let newRows := (fileList.filter (fun k => k ∉ existingKeys)).map
      (fun k => mkRow k (extract k))
  kept ++ newRows

/-! ### TOC paginator and renderer (`add_toc_and_links` and its inner
functions).  Geometry runs over `ℚ`; the externally measured text width
`fitz.get_text_length(text, fontsize)` is an opaque parameter
`tl : Str → ℚ → ℚ`. -/

/-- A TOC entry `(level, title, target_page)` (target is 0-based within
the merged body). -/
abbrev TocEntry := Int × Str × Int

/-- One paginated TOC page: the entries placed on it, each with its
wrapped lines. -/
abbrev WrappedPage := List (TocEntry × List Str)

/-- Python `str.split()` with no arguments: split on whitespace runs,
dropping empties (fuelled). -/
def pySplitWsF : Nat → Str → List Str
  | 0, _ => []
  | fuel + 1, s =>
    let s2 := s.dropWhile isPySpace
    match s2 with
    | [] => []
    | _ :: _ =>
      let w := s2.takeWhile (fun c => !isPySpace c)
      w :: pySplitWsF fuel (s2.drop w.length)

/-- Python `str.split()`. -/
def pySplitWs (s : Str) : List Str := pySplitWsF (s.length + 1) s

/-- The greedy word filling loop of `wrap_toc_title`. -/
def wrapGo (tl : Str → ℚ → ℚ) (fontSize maxWidth : ℚ) :
    List Str → Str → List Str
  | [], cur => if !cur.isEmpty then [cur] else []
  | w :: ws, cur =>
    let testLine := cur ++ (if cur.isEmpty then [] else [' ']) ++ w
    if tl testLine fontSize ≤ maxWidth then wrapGo tl fontSize maxWidth ws testLine
    else if !cur.isEmpty then cur :: wrapGo tl fontSize maxWidth ws w
    else wrapGo tl fontSize maxWidth ws w

/-- `wrap_toc_title`: soft-wrap a title to fit a width at a font size,
then drop lines that strip to empty. -/
def wrap_toc_title (tl : Str → ℚ → ℚ) (title : Str) (fontSize maxWidth : ℚ) :
    List Str :=
  (wrapGo tl fontSize maxWidth (pySplitWs title) []).filter
    (fun line => !(strip line).isEmpty)

/-- The wrapped lines of one entry inside the paginator (width reduced by
the level indent). -/
def wrapOfEntry (tl : Str → ℚ → ℚ) (fontSize tocTextMaxWidth : ℚ)
    (e : TocEntry) : List Str :=
  wrap_toc_title tl e.2.1 fontSize (tocTextMaxWidth - 20 * ((e.1 : ℚ) - 1))

/-- The accumulation loop of `paginate_wrapped_entries`: close the current
page whenever adding the next entry's line count would exceed the per-page
capacity; an entry is always placed whole. -/
def pagGo (wrapOf : TocEntry → List Str) (linesPerPage : Int) :
    List TocEntry → List WrappedPage → WrappedPage → Nat → List WrappedPage
  | [], acc, cur, _ => acc ++ (if !cur.isEmpty then [cur] else [])
  | e :: rest, acc, cur, cnt =>
    let wls := wrapOf e
    let lc := wls.length
    if (((cnt + lc : Nat) : Int) > linesPerPage) then
      pagGo wrapOf linesPerPage rest (acc ++ [cur]) [(e, wls)] lc
    else
      pagGo wrapOf linesPerPage rest acc (cur ++ [(e, wls)]) (cnt + lc)

/-- `paginate_wrapped_entries`: line spacing is `font_size * 1.5`, per-page
capacity is `int((page_height - 100) // y_spacing) - 2`. -/
def paginate_wrapped_entries (tl : Str → ℚ → ℚ) (tocEntries : List TocEntry)
    (fontSize tocTextMaxWidth pageHeight : ℚ) : List WrappedPage :=
  let ySpacing := fontSize * 1.5
  let linesPerPage : Int := ⌊(pageHeight - 100) / ySpacing⌋ - 2
  pagGo (wrapOfEntry tl fontSize tocTextMaxWidth) linesPerPage tocEntries [] [] 0

/-- A clickable-link rectangle. -/
structure LinkRect where
  x0 : ℚ
  y0 : ℚ
  x1 : ℚ
  y1 : ℚ
deriving DecidableEq

/-- One `insert_text` call while drawing a TOC page, tagged with the
call site it came from. -/
inductive TocOp where
  | heading (pos : ℚ × ℚ) (text : Str) (fontsize : ℚ)
  | lineText (pos : ℚ × ℚ) (text : Str) (fontsize : ℚ)
  | dots (pos : ℚ × ℚ) (text : Str) (fontsize : ℚ)
  | pageNum (pos : ℚ × ℚ) (text : Str) (fontsize : ℚ)
deriving DecidableEq

/-- The inner `for i, line in enumerate(wrapped_lines)` loop of
`generate_toc_pages`: every line is drawn; the last line also gets the dot
leader (when the gap is positive) and the right-aligned page number.
Returns the draw calls and the advanced `y`. -/
def renderLinesGo (tl : Str → ℚ → ℚ) (fontSize x pageNumberX pnWidthLocal gap
    ySpacing : ℚ) (pageNumberStr : Str) : List Str → ℚ → List TocOp × ℚ
  | [], y => ([], y)
  | [line], y =>
    let lineWidth := tl line fontSize
    let dotsStartX := x + lineWidth + 2
    let dotOps :=
      if dotsStartX < pageNumberX - pnWidthLocal - gap then
        let dotsWidth := pageNumberX - pnWidthLocal - gap - dotsStartX
        let dotCharWidth := tl ['.'] fontSize
        let dotCount : Int := ⌊dotsWidth / dotCharWidth⌋
        [TocOp.dots (dotsStartX, y) (List.replicate dotCount.toNat '.') fontSize]
      else []
    ([TocOp.lineText (x, y) line fontSize] ++ dotOps ++
       [TocOp.pageNum (pageNumberX - pnWidthLocal, y) pageNumberStr fontSize],
     y + ySpacing)
  | line :: next :: rest, y =>
    let tail := renderLinesGo tl fontSize x pageNumberX pnWidthLocal gap
        ySpacing pageNumberStr (next :: rest) (y + ySpacing)
    (TocOp.lineText (x, y) line fontSize :: tail.1, tail.2)

/-- Render one `(entry, wrapped_lines)` pair: draw calls, the link
rectangle recorded for the entry, and the advanced `y`. -/
def renderEntry (tl : Str → ℚ → ℚ) (fontSize leftMargin pageNumberX gap
    ySpacing : ℚ) (tocPageCount : Nat) (e : TocEntry × List Str) (y : ℚ) :
    List TocOp × (LinkRect × Int) × ℚ :=
  let lvl := e.1.1
  let targetPage := e.1.2.2
  let indent : ℚ := 20 * ((lvl : ℚ) - 1)
  let x := leftMargin + indent
  let pageNumberStr := intToChars (targetPage + tocPageCount + 1)
  let pnWidthLocal := tl pageNumberStr fontSize
  let firstLineY := y
  let r := renderLinesGo tl fontSize x pageNumberX pnWidthLocal gap ySpacing
      pageNumberStr e.2 y
  (r.1, (⟨x, firstLineY - fontSize, pageNumberX, r.2⟩, targetPage), r.2)

/-- Render all entries of one TOC page in order. -/
def renderPageEntries (tl : Str → ℚ → ℚ) (fontSize leftMargin pageNumberX gap
    ySpacing : ℚ) (tocPageCount : Nat) :
    List (TocEntry × List Str) → ℚ → List TocOp × List (LinkRect × Int) × ℚ
  | [], y => ([], [], y)
  | e :: rest, y =>
    let r := renderEntry tl fontSize leftMargin pageNumberX gap ySpacing
        tocPageCount e y
    let rs := renderPageEntries tl fontSize leftMargin pageNumberX gap
        ySpacing tocPageCount rest r.2.2
    (r.1 ++ rs.1, r.2.1 :: rs.2.1, rs.2.2)

/-- The centered heading drawn on the first TOC page only. -/
def headingOps (tl : Str → ℚ → ℚ) (fontSize pageWidth : ℚ) : List TocOp :=
  let tocTitle := "Table of Contents".data
  let titleWidth := tl tocTitle (fontSize + 2)
  [TocOp.heading (pageWidth / 2 - titleWidth / 2, 50) tocTitle (fontSize + 2)]

/-- The per-page loop of `generate_toc_pages` (with the running page
index); produces the draw calls of every page and the collected
`link_targets` `(toc_page_index, rect, target_page)`. -/
def genGo (tl : Str → ℚ → ℚ) (fontSize pageWidth : ℚ) (tocPageCount : Nat)
    (pageNumberX gap : ℚ) :
    List WrappedPage → Nat → List (List TocOp) × List (Nat × LinkRect × Int)
  | [], _ => ([], [])
  | entries :: restPages, pageIndex =>
    let topMargin : ℚ := 50
    let ySpacing := fontSize * 1.5
    let hops := if pageIndex = 0 then headingOps tl fontSize pageWidth else []
    let y1 := if pageIndex = 0 then topMargin + fontSize * 2 else topMargin
    let r := renderPageEntries tl fontSize 50 pageNumberX gap ySpacing
        tocPageCount entries y1
    let rest := genGo tl fontSize pageWidth tocPageCount pageNumberX gap
        restPages (pageIndex + 1)
    ((hops ++ r.1) :: rest.1,
     (r.2.1.map (fun rt => (pageIndex, rt.1, rt.2))) ++ rest.2)

/-- `generate_toc_pages`: draw the TOC pages and collect link targets
(parameters mirror the source; `page_height`, `toc_text_max_width`,
`page_number_width` and `right_margin` are accepted but, as in the source
body, only `page_number_x` and the per-entry local width are used). -/
def generate_toc_pages (tl : Str → ℚ → ℚ) (paginatedEntries : List WrappedPage)
    (fontSize pageWidth _pageHeight : ℚ) (tocPageCount : Nat)
    (_tocTextMaxWidth pageNumberX _pageNumberWidth gap _rightMargin : ℚ) :
    List (List TocOp) × List (Nat × LinkRect × Int) :=
  genGo tl fontSize pageWidth tocPageCount pageNumberX gap paginatedEntries 0

/-- `shift_bookmark_pages`: add the front-matter offset to every stored
page reference (the source guards each entry with
`len([lvl, title, page]) >= 3`, which is always true; kept as written). -/
def shift_bookmark_pages (bookmarks : List (Int × Str × Int)) (offset : Int) :
    List (Int × Str × Int) :=
  bookmarks.filterMap fun b =>
    if (3 : Nat) ≥ 3 then some (b.1, b.2.1, b.2.2 + offset) else none

/-- Everything `add_toc_and_links` produces into the saved document: the
drawn TOC pages, the inserted link annotations (with their final target
pages), the rewritten outline, and the front-matter page count. -/
structure TocResult where
  tocPages : List (List TocOp)
  insertedLinks : List (Nat × LinkRect × Int)
  finalToc : List (Int × Str × Int)
  tocPageCount : Nat

/-- `extract_toc_entries`: `doc.get_toc(simple=True)` rows to
`(level, stripped title, page - 1)`. -/
def extract_toc_entries (bookmarks : List (Int × Str × Int)) : List TocEntry :=
  bookmarks.map fun b => (b.1, strip b.2.1, b.2.2 - 1)

/-- `add_toc_and_links`: paginate the document's outline into TOC pages,
draw them, insert one link per entry at `target_page + toc_page_count`,
and shift every original outline page reference by `toc_page_count`.
`bookmarks` is the merged document's outline as returned by `get_toc()`
(1-based pages); A4 geometry is `(595, 842)`. -/
def add_toc_and_links (tl : Str → ℚ → ℚ) (bookmarks : List (Int × Str × Int))
    (fontSize : ℚ) : TocResult :=
  let originalToc := extract_toc_entries bookmarks
  let width : ℚ := 595
  let height : ℚ := 842
  let pageNumberWidth := tl (natToChars 99999) fontSize
  let pageNumberX := width - 60
  let gap : ℚ := 8
  let tocTextMaxWidth := pageNumberX - 50 - pageNumberWidth - gap
  let paginated := paginate_wrapped_entries tl originalToc fontSize
      tocTextMaxWidth height
  let gen := generate_toc_pages tl paginated fontSize width height
      paginated.length tocTextMaxWidth pageNumberX pageNumberWidth gap 60
  let tocPageCount := paginated.length
  { tocPages := gen.1
    insertedLinks := gen.2.map fun l => (l.1, l.2.1, l.2.2 + tocPageCount)
    finalToc := shift_bookmark_pages bookmarks tocPageCount
    tocPageCount := tocPageCount }

/-- Project the rendered page-number strings out of a drawn page. -/
def pageNumStringsOf (ops : List TocOp) : List Str :=
  ops.filterMap fun op =>
    match op with
    | TocOp.pageNum _ s _ => some s
    | _ => none

/-! ## Helper lemmas -/

/-- The pagination loop never splits a pair: flattening its output yields
the accumulated pages, the open page, and one whole pair per remaining
entry. -/
theorem pagGo_flatten (wrapOf : TocEntry → List Str) (lpp : Int) :
    ∀ (es : List TocEntry) (acc : List WrappedPage) (cur : WrappedPage)
      (cnt : Nat),
      (pagGo wrapOf lpp es acc cur cnt).flatten
        = acc.flatten ++ cur ++ es.map (fun e => (e, wrapOf e)) := by
  intro es
  induction es with
  | nil =>
    intro acc cur cnt
    by_cases h : cur.isEmpty
    · have : cur = [] := List.isEmpty_iff.mp h
      simp [pagGo, h, this]
    · simp [pagGo, h]
  | cons e rest ih =>
    intro acc cur cnt
    by_cases h : ((cnt + (wrapOf e).length : Nat) : Int) > lpp
    · simp only [pagGo, if_pos h, ih]
      simp
    · simp only [pagGo, if_neg h, ih]
      simp

/-- Rendering the lines of one entry emits its page-number string exactly
once — or not at all when the entry wrapped to no lines. -/
theorem renderLinesGo_pageNums (tl : Str → ℚ → ℚ)
    (fontSize x pageNumberX pnWidthLocal gap ySpacing : ℚ)
    (pageNumberStr : Str) :
    ∀ (wls : List Str) (y : ℚ),
      pageNumStringsOf (renderLinesGo tl fontSize x pageNumberX pnWidthLocal
          gap ySpacing pageNumberStr wls y).1
        = if wls.isEmpty then [] else [pageNumberStr] := by
  intro wls
  induction wls with
  | nil => intro y; simp [renderLinesGo, pageNumStringsOf]
  | cons l rest ih =>
    intro y
    cases rest with
    | nil =>
      by_cases h : x + tl l fontSize + 2 <
          pageNumberX - pnWidthLocal - gap
      · simp [renderLinesGo, pageNumStringsOf, if_pos h]
      · simp [renderLinesGo, pageNumStringsOf, if_neg h]
    | cons l2 rest2 =>
      simp only [renderLinesGo, pageNumStringsOf, List.filterMap_cons]
      have := ih (y + ySpacing)
      simp only [pageNumStringsOf] at this
      simp [this]

/-- Page-number strings of one page's entries: one per entry with a
non-empty wrap, each showing `target_page + toc_page_count + 1`. -/
theorem renderPageEntries_pageNums (tl : Str → ℚ → ℚ)
    (fontSize leftMargin pageNumberX gap ySpacing : ℚ) (tocPageCount : Nat) :
    ∀ (es : List (TocEntry × List Str)) (y : ℚ),
      pageNumStringsOf (renderPageEntries tl fontSize leftMargin pageNumberX
          gap ySpacing tocPageCount es y).1
        = (es.filter (fun e => !e.2.isEmpty)).map
            (fun e => intToChars (e.1.2.2 + tocPageCount + 1)) := by
  intro es
  induction es with
  | nil => intro y; simp [renderPageEntries, pageNumStringsOf]
  | cons e rest ih =>
    intro y
    simp only [renderPageEntries, pageNumStringsOf, List.filterMap_append]
    have h1 := renderLinesGo_pageNums tl fontSize
        (leftMargin + 20 * ((e.1.1 : ℚ) - 1)) pageNumberX
        (tl (intToChars (e.1.2.2 + tocPageCount + 1)) fontSize) gap ySpacing
        (intToChars (e.1.2.2 + tocPageCount + 1)) e.2 y
    simp only [pageNumStringsOf] at h1
    have h2 := ih (renderEntry tl fontSize leftMargin pageNumberX gap ySpacing
        tocPageCount e y).2.2
    simp only [pageNumStringsOf] at h2
    simp only [renderEntry] at h1 h2 ⊢
    rw [h1, h2]
    by_cases h : e.2.isEmpty <;> simp [h, List.filter_cons]

/-- The recorded link targets of one page's entries are exactly the
entries' target pages, in order. -/
theorem renderPageEntries_targets (tl : Str → ℚ → ℚ)
    (fontSize leftMargin pageNumberX gap ySpacing : ℚ) (tocPageCount : Nat) :
    ∀ (es : List (TocEntry × List Str)) (y : ℚ),
      (renderPageEntries tl fontSize leftMargin pageNumberX gap ySpacing
          tocPageCount es y).2.1.map (fun rt => rt.2)
        = es.map (fun e => e.1.2.2) := by
  intro es
  induction es with
  | nil => intro y; simp [renderPageEntries]
  | cons e rest ih =>
    intro y
    simp only [renderPageEntries, List.map_cons]
    rw [ih]
    rfl

/-- The heading draws no page number. -/
theorem headingOps_pageNums (tl : Str → ℚ → ℚ) (fontSize pageWidth : ℚ) :
    pageNumStringsOf (headingOps tl fontSize pageWidth) = [] := by
  simp [headingOps, pageNumStringsOf]

/-- All page-number strings drawn by the page loop: one per entry with a
non-empty wrap, across all pages. -/
theorem genGo_pageNums (tl : Str → ℚ → ℚ) (fontSize pageWidth : ℚ)
    (tocPageCount : Nat) (pageNumberX gap : ℚ) :
    ∀ (pages : List WrappedPage) (pageIndex : Nat),
      ((genGo tl fontSize pageWidth tocPageCount pageNumberX gap pages
          pageIndex).1.map pageNumStringsOf).flatten
        = (pages.flatten.filter (fun e => !e.2.isEmpty)).map
            (fun e => intToChars (e.1.2.2 + tocPageCount + 1)) := by
  intro pages
  induction pages with
  | nil => intro pageIndex; simp [genGo]
  | cons pg rest ih =>
    intro pageIndex
    simp only [genGo, List.map_cons, List.flatten_cons, List.flatten_append,
      List.filter_append, List.map_append]
    rw [ih]
    simp only [pageNumStringsOf, List.filterMap_append]
    have h1 := renderPageEntries_pageNums tl fontSize 50 pageNumberX gap
        (fontSize * 1.5) tocPageCount pg
        (if pageIndex = 0 then 50 + fontSize * 2 else 50)
    simp only [pageNumStringsOf] at h1
    rw [h1]
    by_cases h : pageIndex = 0
    · have hh := headingOps_pageNums tl fontSize pageWidth
      simp only [pageNumStringsOf] at hh
      simp [h, hh]
    · simp [h]

/-- All link targets recorded by the page loop are the entries' target
pages, in page order. -/
theorem genGo_targets (tl : Str → ℚ → ℚ) (fontSize pageWidth : ℚ)
    (tocPageCount : Nat) (pageNumberX gap : ℚ) :
    ∀ (pages : List WrappedPage) (pageIndex : Nat),
      (genGo tl fontSize pageWidth tocPageCount pageNumberX gap pages
          pageIndex).2.map (fun l => l.2.2)
        = pages.flatten.map (fun e => e.1.2.2) := by
  intro pages
  induction pages with
  | nil => intro pageIndex; simp [genGo]
  | cons pg rest ih =>
    intro pageIndex
    simp only [genGo, List.flatten_cons, List.map_append]
    rw [ih]
    have h1 := renderPageEntries_targets tl fontSize 50 pageNumberX gap
        (fontSize * 1.5) tocPageCount pg
        (if pageIndex = 0 then 50 + fontSize * 2 else 50)
    simp only [List.map_map]
    rw [← h1]
    rfl

/-- `shift_bookmark_pages` is a plain page shift (its guard is always
true). -/
theorem shift_bookmark_pages_eq_map (bookmarks : List (Int × Str × Int))
    (offset : Int) :
    shift_bookmark_pages bookmarks offset
      = bookmarks.map (fun b => (b.1, b.2.1, b.2.2 + offset)) := by
  simp only [shift_bookmark_pages, ge_iff_le, le_refl, if_true]
  induction bookmarks with
  | nil => rfl
  | cons b rest ih => simp [List.filterMap_cons, ih]

/-! ## Claim theorems -/

/-- C1: for every merged document's outline and every width measure, with
`F` the front-matter page count computed by the paginator: every rendered
TOC page number shows `target_page + F + 1`, every inserted link
annotation targets `target_page + F`, and every pre-existing outline page
reference in the saved output is its original value plus `F`. -/
theorem toc_offsets_shift_by_front_matter (tl : Str → ℚ → ℚ)
    (bms : List (Int × Str × Int)) (fontSize : ℚ) :
    let res := add_toc_and_links tl bms fontSize
    let pag := paginate_wrapped_entries tl (extract_toc_entries bms) fontSize
        (595 - 60 - 50 - tl (natToChars 99999) fontSize - 8) 842
    let F := pag.length
    res.tocPageCount = F ∧
    (res.tocPages.map pageNumStringsOf).flatten
      = (pag.flatten.filter (fun e => !e.2.isEmpty)).map
          (fun e => intToChars (e.1.2.2 + F + 1)) ∧
    res.insertedLinks.map (fun l => l.2.2)
      = pag.flatten.map (fun e => e.1.2.2 + (F : Int)) ∧
    res.finalToc = bms.map (fun b => (b.1, b.2.1, b.2.2 + (F : Int))) := by
  intro res pag F
  have hpag : (add_toc_and_links tl bms fontSize).tocPageCount = pag.length := by
    simp only [add_toc_and_links]
  refine ⟨hpag, ?_, ?_, ?_⟩
  · show ((add_toc_and_links tl bms fontSize).tocPages.map
        pageNumStringsOf).flatten = _
    simp only [add_toc_and_links, generate_toc_pages]
    exact genGo_pageNums tl fontSize 595 pag.length (595 - 60) 8 pag 0
  · show (add_toc_and_links tl bms fontSize).insertedLinks.map
        (fun l => l.2.2) = _
    simp only [add_toc_and_links, generate_toc_pages, List.map_map]
    have := genGo_targets tl fontSize 595 pag.length (595 - 60) 8 pag 0
    calc (genGo tl fontSize 595 pag.length (595 - 60) 8 pag 0).2.map
          (fun l => l.2.2 + (pag.length : Int))
        = ((genGo tl fontSize 595 pag.length (595 - 60) 8 pag 0).2.map
            (fun l => l.2.2)).map (fun t => t + (pag.length : Int)) := by
          rw [List.map_map]; simp only [Function.comp_def]
      _ = (pag.flatten.map (fun e => e.1.2.2)).map
            (fun t => t + (pag.length : Int)) := by rw [this]
      _ = pag.flatten.map (fun e => e.1.2.2 + (pag.length : Int)) := by
          rw [List.map_map]; simp only [Function.comp_def]
  · show (add_toc_and_links tl bms fontSize).finalToc = _
    simp only [add_toc_and_links]
    exact shift_bookmark_pages_eq_map bms pag.length

/-- C2: pagination never divides an entry's `(entry, wrapped-lines)` pair
between two TOC pages: flattening the pages returns exactly one whole pair
per entry, in order, regardless of the page capacity; consequently every
entry appears on exactly one page. -/
theorem pagination_keeps_entry_on_one_page (tl : Str → ℚ → ℚ)
    (entries : List TocEntry) (fontSize tocTextMaxWidth pageHeight : ℚ) :
    (paginate_wrapped_entries tl entries fontSize tocTextMaxWidth
        pageHeight).flatten
      = entries.map (fun e => (e, wrapOfEntry tl fontSize tocTextMaxWidth e)) ∧
    ∀ e ∈ entries,
      ∃ pg ∈ paginate_wrapped_entries tl entries fontSize tocTextMaxWidth
          pageHeight,
        (e, wrapOfEntry tl fontSize tocTextMaxWidth e) ∈ pg := by
  have hflat := pagGo_flatten (wrapOfEntry tl fontSize tocTextMaxWidth)
      (⌊(pageHeight - 100) / (fontSize * 1.5)⌋ - 2) entries [] [] 0
  constructor
  · simpa [paginate_wrapped_entries] using hflat
  · intro e he
    have hmem : (e, wrapOfEntry tl fontSize tocTextMaxWidth e)
        ∈ (paginate_wrapped_entries tl entries fontSize tocTextMaxWidth
            pageHeight).flatten := by
      have : (e, wrapOfEntry tl fontSize tocTextMaxWidth e)
          ∈ entries.map (fun e => (e, wrapOfEntry tl fontSize tocTextMaxWidth e)) :=
        List.mem_map_of_mem _ he
      simpa [paginate_wrapped_entries, hflat] using this
    exact List.mem_flatten.mp hmem

/-- Every row surviving the deletion loop was in the table and its key is
still present. -/
theorem removeMissing_sound (fileset : List (Str × Str)) :
    ∀ (table : List FileRow) (r : FileRow),
      r ∈ removeMissing fileset table → r ∈ table ∧ rowKey r ∈ fileset := by
  intro table
  induction table with
  | nil => intro r h; simp [removeMissing] at h
  | cons q rest ih =>
    intro r h
    simp only [removeMissing] at h
    by_cases hk : rowKey q ∈ fileset
    · rw [if_pos hk] at h
      rcases List.mem_cons.mp h with h1 | h2
      · subst h1; exact ⟨List.mem_cons_self _ _, hk⟩
      · exact ⟨List.mem_cons_of_mem _ (ih r h2).1, (ih r h2).2⟩
    · rw [if_neg hk] at h
      exact ⟨List.mem_cons_of_mem _ (ih r h).1, (ih r h).2⟩

/-- Every row of the table whose key survives is kept by the deletion
loop. -/
theorem removeMissing_complete (fileset : List (Str × Str)) :
    ∀ (table : List FileRow) (r : FileRow),
      r ∈ table → rowKey r ∈ fileset → r ∈ removeMissing fileset table := by
  intro table
  induction table with
  | nil => intro r h; simp at h
  | cons q rest ih =>
    intro r h hk
    simp only [removeMissing]
    rcases List.mem_cons.mp h with h1 | h2
    · subst h1; rw [if_pos hk]; exact List.mem_cons_self _ _
    · by_cases hq : rowKey q ∈ fileset
      · rw [if_pos hq]; exact List.mem_cons_of_mem _ (ih r h2 hk)
      · rw [if_neg hq]; exact ih r h2 hk

/-- C9: a rescan keeps every row whose `(type, filename)` key is still in
the folder, with all seven fields (in particular the include flag and the
bookmark) unchanged; every row of the result refers to a file that still
exists; and any row that is not carried over verbatim is a freshly
extracted row for a key that was not previously in the table. -/
theorem refresh_preserves_rows (table : List FileRow)
    (files : List (Str × Str))
    (extract : Str × Str → Str × Str × Str × Str) :
    (∀ r ∈ table, rowKey r ∈ files → r ∈ refresh_folder table files extract) ∧
    (∀ r ∈ refresh_folder table files extract, rowKey r ∈ files) ∧
    (∀ r ∈ refresh_folder table files extract,
      r ∈ table ∨
        (rowKey r ∉ table.map rowKey ∧ r = mkRow (rowKey r)
          (extract (rowKey r)))) := by
  refine ⟨?_, ?_, ?_⟩
  · intro r hr hk
    simp only [refresh_folder, List.mem_append]
    exact Or.inl (removeMissing_complete files table r hr hk)
  · intro r hr
    simp only [refresh_folder, List.mem_append] at hr
    rcases hr with h | h
    · exact (removeMissing_sound files table r h).2
    · rcases List.mem_map.mp h with ⟨k, hk, hmk⟩
      have hkf : k ∈ files := (List.mem_filter.mp hk).1
      have : rowKey r = k := by rw [← hmk]; rfl
      rw [this]; exact hkf
  · intro r hr
    simp only [refresh_folder, List.mem_append] at hr
    rcases hr with h | h
    · exact Or.inl (removeMissing_sound files table r h).1
    · rcases List.mem_map.mp h with ⟨k, hk, hmk⟩
      have hknew : k ∉ table.map rowKey := by
        have := (List.mem_filter.mp hk).2
        simpa using this
      have hkey : rowKey r = k := by rw [← hmk]; rfl
      refine Or.inr ⟨?_, ?_⟩
      · rw [hkey]; exact hknew
      · rw [hkey, hmk]

/-- Witness for `refresh_preserves_rows` at a concrete table and folder
state: a manually edited row whose file persists is kept verbatim. -/
theorem refresh_preserves_rows_witness :
    let row : FileRow := ⟨false, "RTF".data, "t1.rtf".data, "Table 1".data,
      [], [], "My manual bookmark".data⟩
    row ∈ refresh_folder [row] [("RTF".data, "t1.rtf".data)]
      (fun _ => ([], [], [], [])) := by
  intro row
  exact (refresh_preserves_rows [row] [("RTF".data, "t1.rtf".data)]
      (fun _ => ([], [], [], []))).1 row (List.mem_cons_self _ _) (by decide)

/-- Witness for `pagination_keeps_entry_on_one_page` at one concrete
entry. -/
theorem pagination_keeps_entry_on_one_page_witness :
    ∃ pg ∈ paginate_wrapped_entries (fun s _ => (s.length : ℚ))
        [((1 : Int), "Table 1 Demo".data, (0 : Int))] 8 472 842,
      (((1 : Int), "Table 1 Demo".data, (0 : Int)),
        wrapOfEntry (fun s _ => (s.length : ℚ)) 8 472
          ((1 : Int), "Table 1 Demo".data, (0 : Int))) ∈ pg :=
  (pagination_keeps_entry_on_one_page (fun s _ => (s.length : ℚ))
      [((1 : Int), "Table 1 Demo".data, (0 : Int))] 8 472 842).2
    ((1 : Int), "Table 1 Demo".data, (0 : Int)) (by decide)

/-- C3: on the single candidate line `"Table 14.1.1 Summary of
Demographics"` the builder produces Title-1 `"Table 14.1.1"`, Title-2
`"Summary of Demographics"`, empty Title-3, and bookmark
`"Table 14.1.1: Summary of Demographics"`, whatever the file name. -/
theorem builder_table_14_1_1_example : ∀ basename : Str,
    rtfCore ["Table 14.1.1 Summary of Demographics".data] basename =
      ("Table 14.1.1".data, "Summary of Demographics".data, [],
       "Table 14.1.1: Summary of Demographics".data) := by
  intro basename
  rfl

/-- C4: `parse_sort_key "Appendix 3: Listing of Protocol Deviations"` is
category rank 3 with numeric path `[3]` (the word "Listing" does not
demote it), and this key compares strictly greater than the key of every
bookmark ranked Table, Listing or Figure (rank < 3), whatever their
numeric paths. -/
theorem appendix_sort_key_after_tlf :
    parse_sort_key "Appendix 3: Listing of Protocol Deviations".data
      = (3, [3]) ∧
    ∀ (b : Str) (r : Nat) (p : List Nat), parse_sort_key b = (r, p) →
      r < 3 → keyLt (r, p) (3, [3]) = true := by
  refine ⟨by decide, ?_⟩
  intro b r p _ hr
  simp [keyLt, hr]

/-- Witness for `appendix_sort_key_after_tlf` at the Table-ranked
bookmark `"Table 99.99"`. -/
theorem appendix_sort_key_after_tlf_witness :
    keyLt (0, [99, 99]) (3, [3]) = true :=
  appendix_sort_key_after_tlf.2 "Table 99.99".data 0 [99, 99]
    (by decide) (by decide)

/-- C5 counterexample: the claim fails as stated.  A Table bookmark with
no number gets numeric path `[0]`, which sorts strictly *before* the path
`[1]` of `"Table 1"` (not greater-or-equal, i.e. not last); and for
`"T 5 Table 7"` the numeric path is `[5]`, the first number anywhere in
the text, not the `[7]` that follows the category keyword. -/
theorem sort_key_missing_number_cex :
    parse_sort_key "Table".data = (0, [0]) ∧
    parse_sort_key "Table 1".data = (0, [1]) ∧
    listLtPy [0] [1] = true ∧
    parse_sort_key "T 5 Table 7".data = (0, [5]) := by decide

/-- The category rank `r` a non-appendix bookmark gets from the keyword
priority table → listing → figure (the source's dict iteration order),
phrased over the normalized text. -/
def keywordRank (t : Str) (r : Nat) : Prop :=
  (r = 0 ∧ containsSub "table".data t = true) ∨
  (r = 1 ∧ containsSub "table".data t = false ∧
    containsSub "listing".data t = true) ∨
  (r = 2 ∧ containsSub "table".data t = false ∧
    containsSub "listing".data t = false ∧
    containsSub "figure".data t = true)

/-- C5 amended: a bookmark containing "appendix" takes the first number
directly following an occurrence of "appendix", defaulting to `[9999]`
when there is none; a Table-, Listing- or Figure-ranked bookmark (rank
from the keyword priority) with no number anywhere defaults to `[0]`
(which sorts first, not last); and when a number is present its numeric
path is the *first* dot-separated integer sequence anywhere in the
normalized text, not necessarily the one following the category
keyword. -/
theorem sort_key_numeric_path_amended :
    (∀ b : Str, containsSub "appendix".data (sortKeyText b) = true →
      pySearchO appendixNumAt (sortKeyText b) = none →
      parse_sort_key b = (3, [9999])) ∧
    (∀ (b : Str) (n : Nat),
      containsSub "appendix".data (sortKeyText b) = true →
      pySearchO appendixNumAt (sortKeyText b) = some n →
      parse_sort_key b = (3, [n])) ∧
    (∀ (b : Str) (r : Nat),
      containsSub "appendix".data (sortKeyText b) = false →
      keywordRank (sortKeyText b) r →
      pySearchO numSeqAt (sortKeyText b) = none →
      parse_sort_key b = (r, [0])) ∧
    (∀ (b : Str) (r : Nat) (l : List Nat),
      containsSub "appendix".data (sortKeyText b) = false →
      keywordRank (sortKeyText b) r →
      pySearchO numSeqAt (sortKeyText b) = some l →
      parse_sort_key b = (r, l)) := by
  refine ⟨?_, ?_, ?_, ?_⟩
  · intro b h1 h2
    simp [parse_sort_key, h1, h2]
  · intro b n h1 h2
    simp [parse_sort_key, h1, h2]
  · intro b r h1 hr h3
    rcases hr with ⟨hr0, ht⟩ | ⟨hr1, ht, hl⟩ | ⟨hr2, ht, hl, hf⟩
    · subst hr0; simp [parse_sort_key, numPathOf, h1, ht, h3]
    · subst hr1; simp [parse_sort_key, numPathOf, h1, ht, hl, h3]
    · subst hr2; simp [parse_sort_key, numPathOf, h1, ht, hl, hf, h3]
  · intro b r l h1 hr h3
    rcases hr with ⟨hr0, ht⟩ | ⟨hr1, ht, hl⟩ | ⟨hr2, ht, hl, hf⟩
    · subst hr0; simp [parse_sort_key, numPathOf, h1, ht, h3]
    · subst hr1; simp [parse_sort_key, numPathOf, h1, ht, hl, h3]
    · subst hr2; simp [parse_sort_key, numPathOf, h1, ht, hl, hf, h3]

/-- Witness for `sort_key_numeric_path_amended` at concrete bookmarks
covering the Appendix branch (with and without a number) and all three
keyword ranks, each with and without a number. -/
theorem sort_key_numeric_path_amended_witness :
    parse_sort_key "Appendix only".data = (3, [9999]) ∧
    parse_sort_key "Appendix 77 then 88".data = (3, [77]) ∧
    parse_sort_key "Table zero".data = (0, [0]) ∧
    parse_sort_key "Listing".data = (1, [0]) ∧
    parse_sort_key "Figure only".data = (2, [0]) ∧
    parse_sort_key "List A Table 23.4".data = (0, [23, 4]) ∧
    parse_sort_key "B 9 Listing 12.3".data = (1, [9]) ∧
    parse_sort_key "Figure B 4.5".data = (2, [4, 5]) := by
  refine ⟨?_, ?_, ?_, ?_, ?_, ?_, ?_, ?_⟩
  · exact sort_key_numeric_path_amended.1 "Appendix only".data
      (by decide) (by decide)
  · exact sort_key_numeric_path_amended.2.1 "Appendix 77 then 88".data 77
      (by decide) (by decide)
  · exact sort_key_numeric_path_amended.2.2.1 "Table zero".data 0
      (by decide) (Or.inl (by decide)) (by decide)
  · exact sort_key_numeric_path_amended.2.2.1 "Listing".data 1
      (by decide) (Or.inr (Or.inl (by decide))) (by decide)
  · exact sort_key_numeric_path_amended.2.2.1 "Figure only".data 2
      (by decide) (Or.inr (Or.inr (by decide))) (by decide)
  · exact sort_key_numeric_path_amended.2.2.2 "List A Table 23.4".data 0
      [23, 4] (by decide) (Or.inl (by decide)) (by decide)
  · exact sort_key_numeric_path_amended.2.2.2 "B 9 Listing 12.3".data 1
      [9] (by decide) (Or.inr (Or.inl (by decide))) (by decide)
  · exact sort_key_numeric_path_amended.2.2.2 "Figure B 4.5".data 2
      [4, 5] (by decide) (Or.inr (Or.inr (by decide))) (by decide)

/-- C10 counterexample: on `"XXTable 1 Results"` the first identifier
match is at offset `k = 2` with length `m = 7`, and the computed remainder
`line[m:] = " 1 Results"` is not what the claim describes (the `k`
pre-match characters followed by the post-match text short of its final
`k` characters, which here is `"XX Resul"`). -/
theorem remainder_offset_claim_cex :
    searchTitle "XXTable 1 Results".data = some (2, 7) ∧
    "XXTable 1 Results".data.drop 7 = " 1 Results".data ∧
    "XXTable 1 Results".data.drop 7 ≠
      "XXTable 1 Results".data.take 2 ++
        (let b := "XXTable 1 Results".data.drop 9; b.take (b.length - 2)) := by
  decide

/-- C10 amended: the same-line Title-2 remainder is the line with its
first `m = len(group(0))` characters removed; when the first match begins
at offset `k > 0` this keeps the `k` characters at positions
`m..k+m-1` (the tail of the span up to the match end) together with all
of the text following the match, and therefore differs from the substring
following the match. -/
theorem remainder_drops_match_length_chars :
    ∀ (line : Str) (k m : Nat), searchTitle line = some (k, m) → 0 < k →
      k + m ≤ line.length →
      remainderOf line m
        = filter_note_from_line (stripSet sepChars (line.drop m)) ∧
      line.drop m = (line.take (k + m)).drop m ++ line.drop (k + m) ∧
      line.drop m ≠ line.drop (k + m) := by
  intro line k m _ hk hlen
  refine ⟨rfl, ?_, ?_⟩
  · conv_lhs => rw [← List.take_append_drop (k + m) line]
    rw [List.drop_append_eq_append_drop]
    have ht : (line.take (k + m)).length = k + m := by
      rw [List.length_take]; omega
    rw [ht]
    have hz : m - (k + m) = 0 := by omega
    rw [hz, List.drop_zero]
  · intro heq
    have hlen2 := congrArg List.length heq
    rw [List.length_drop, List.length_drop] at hlen2
    omega

/-- Witness for `remainder_drops_match_length_chars` at
`"A Table 2 B"` (match `"Table 2"` at offset 2). -/
theorem remainder_drops_match_length_chars_witness :
    remainderOf "A Table 2 B".data 7
      = filter_note_from_line (stripSet sepChars ("A Table 2 B".data.drop 7)) ∧
    "A Table 2 B".data.drop 7
      = ("A Table 2 B".data.take 9).drop 7 ++ "A Table 2 B".data.drop 9 ∧
    "A Table 2 B".data.drop 7 ≠ "A Table 2 B".data.drop 9 :=
  remainder_drops_match_length_chars "A Table 2 B".data 2 7
    (by decide) (by decide) (by decide)

/-! ### Strip and validator facts used by the noise claims -/

/-- `stripEndWs` is Mathlib's `rdropWhile`. -/
theorem stripEndWs_eq (t : Str) : stripEndWs t = t.rdropWhile isPySpace := rfl

/-- Dropping trailing characters preserves a fixed point of `dropWhile`. -/
theorem dropWhile_rdropWhile_fixed (p : Char → Bool) (l : Str)
    (h : l.dropWhile p = l) :
    (l.rdropWhile p).dropWhile p = l.rdropWhile p := by
  rcases List.rdropWhile_prefix p l with ⟨t, ht⟩
  cases hu : l.rdropWhile p with
  | nil => simp
  | cons c u =>
    have hl : l = c :: (u ++ t) := by rw [← ht, hu]; simp
    have hpc : ¬p c = true := by
      intro hpc
      rw [hl, List.dropWhile_cons, if_pos hpc] at h
      have hlength := congrArg List.length h
      rw [List.length_cons] at hlength
      have hle := (List.dropWhile_suffix p (l := u ++ t)).sublist.length_le
      omega
    rw [List.dropWhile_cons, if_neg hpc]

/-- `strip` is idempotent. -/
theorem strip_idem (s : Str) : strip (strip s) = strip s := by
  show ((((s.dropWhile isPySpace).rdropWhile isPySpace).dropWhile
      isPySpace).rdropWhile isPySpace)
    = (s.dropWhile isPySpace).rdropWhile isPySpace
  rw [dropWhile_rdropWhile_fixed isPySpace _
      (List.dropWhile_idempotent isPySpace s),
    List.rdropWhile_idempotent]

/-- The output of `filter_note_from_line` is already stripped. -/
theorem filter_note_stripped (x : Str) :
    strip (filter_note_from_line x) = filter_note_from_line x := by
  unfold filter_note_from_line
  exact strip_idem _

/-- A validator-accepted candidate is, once stripped, not footer
content. -/
theorem valid_imp_not_footer (c : Str) (h : valid_title_candidate c = true) :
    is_footer_content (strip c) = false := by
  by_contra hf
  rw [Bool.not_eq_false] at hf
  simp [valid_title_candidate, hf] at h

/-- A lookahead title (RTF/PDF style) is empty or not footer content. -/
theorem lookahead_ok (cand : Str) :
    lookaheadTitle cand = [] ∨ is_footer_content (lookaheadTitle cand) = false := by
  unfold lookaheadTitle
  by_cases h : valid_title_candidate (filter_note_from_line cand) = true
  · right
    rw [if_pos h]
    exact valid_imp_not_footer _ h
  · left
    rw [if_neg h]

/-- A validator-accepted same-line remainder is not footer content. -/
theorem remainder_not_footer (line : Str) (m : Nat)
    (h : valid_title_candidate (remainderOf line m) = true) :
    is_footer_content (remainderOf line m) = false := by
  have h2 := valid_imp_not_footer _ h
  rwa [show strip (remainderOf line m) = remainderOf line m from
    filter_note_stripped _] at h2

/-- The RTF matching loop only emits Title-2/Title-3 values that are
empty or validator-cleared (hence not footer content). -/
theorem rtfMatchLoop_titles_ok : ∀ (ls : List Str) (t1 t2 t3 : Str),
    rtfMatchLoop ls = some (t1, t2, t3) →
    (t2 = [] ∨ is_footer_content t2 = false) ∧
    (t3 = [] ∨ is_footer_content t3 = false) := by
  intro ls
  induction ls with
  | nil => intro t1 t2 t3 h; simp [rtfMatchLoop] at h
  | cons line rest ih =>
    intro t1 t2 t3 h
    rw [rtfMatchLoop] at h
    cases hs : searchTitle line with
    | none => rw [hs] at h; exact ih t1 t2 t3 h
    | some km =>
      obtain ⟨k, m⟩ := km
      rw [hs] at h
      simp only [Option.some.injEq, Prod.mk.injEq] at h
      obtain ⟨_, h2, h3⟩ := h
      constructor
      · rw [← h2]
        by_cases hc : (!(remainderOf line m).isEmpty &&
            valid_title_candidate (remainderOf line m)) = true
        · have hvalid := (Bool.and_eq_true _ _).mp hc |>.2
          have hne : (remainderOf line m).isEmpty = false := by
            have := (Bool.and_eq_true _ _).mp hc |>.1
            simpa using this
          rw [if_pos hc]
          simp only [hne, Bool.not_false, if_pos]
          right
          exact remainder_not_footer line m hvalid
        · rw [if_neg hc]
          simp only [List.isEmpty_nil, Bool.not_true, Bool.false_eq_true,
            if_false]
          cases rest.head? with
          | none => left; rfl
          | some nxt => exact lookahead_ok nxt
      · rw [← h3]
        cases rest.get? 1 with
        | none => left; rfl
        | some nxt2 => exact lookahead_ok nxt2

/-- The PDF matching loop only emits Title-2/Title-3 values that are
empty or validator-cleared (hence not footer content). -/
theorem pdfMatchLoop_titles_ok (all : List Str) :
    ∀ (win : List (Nat × Str)) (t1 t2 t3 : Str),
    pdfMatchLoop all win = some (t1, t2, t3) →
    (t2 = [] ∨ is_footer_content t2 = false) ∧
    (t3 = [] ∨ is_footer_content t3 = false) := by
  intro win
  induction win with
  | nil => intro t1 t2 t3 h; simp [pdfMatchLoop] at h
  | cons iline rest ih =>
    intro t1 t2 t3 h
    obtain ⟨i, line⟩ := iline
    rw [pdfMatchLoop] at h
    cases hs : searchTitle line with
    | none => rw [hs] at h; exact ih t1 t2 t3 h
    | some km =>
      obtain ⟨k, m⟩ := km
      rw [hs] at h
      simp only [Option.some.injEq, Prod.mk.injEq] at h
      obtain ⟨_, h2, h3⟩ := h
      constructor
      · rw [← h2]
        by_cases hc : (!(remainderOf line m).isEmpty &&
            valid_title_candidate (remainderOf line m)) = true
        · have hvalid := (Bool.and_eq_true _ _).mp hc |>.2
          have hne : (remainderOf line m).isEmpty = false := by
            have := (Bool.and_eq_true _ _).mp hc |>.1
            simpa using this
          rw [if_pos hc]
          simp only [hne, Bool.not_false, if_pos]
          right
          exact remainder_not_footer line m hvalid
        · rw [if_neg hc]
          simp only [List.isEmpty_nil, Bool.not_true, Bool.false_eq_true,
            if_false]
          cases all.get? (i + 1) with
          | none => left; rfl
          | some nxt => exact lookahead_ok nxt
      · rw [← h3]
        cases all.get? (i + 2) with
        | none => left; rfl
        | some nxt2 => exact lookahead_ok nxt2

/-- The DOCX matching loop, over a list of already-stripped lines, only
emits Title-2/Title-3 values that are empty or validator-cleared. -/
theorem docxMatchLoop_titles_ok (all : List Str)
    (hstr : ∀ l ∈ all, strip l = l) :
    ∀ (win : List (Nat × Str)) (t1 t2 t3 : Str),
    docxMatchLoop all win = some (t1, t2, t3) →
    (t2 = [] ∨ is_footer_content t2 = false) ∧
    (t3 = [] ∨ is_footer_content t3 = false) := by
  have hcand : ∀ (j : Nat),
      (match all.get? j with
        | some nxt => if valid_title_candidate nxt then nxt else []
        | none => []) = [] ∨
      is_footer_content
        (match all.get? j with
          | some nxt => if valid_title_candidate nxt then nxt else []
          | none => []) = false := by
    intro j
    cases hg : all.get? j with
    | none => left; rfl
    | some nxt =>
      dsimp only
      by_cases hv : valid_title_candidate nxt = true
      · right
        rw [if_pos hv]
        have hmem : nxt ∈ all := List.get?_mem hg
        have := valid_imp_not_footer nxt hv
        rwa [hstr nxt hmem] at this
      · left
        rw [if_neg hv]
  intro win
  induction win with
  | nil => intro t1 t2 t3 h; simp [docxMatchLoop] at h
  | cons iline rest ih =>
    intro t1 t2 t3 h
    obtain ⟨i, line⟩ := iline
    rw [docxMatchLoop] at h
    cases hs : matchTitleAt line with
    | none => rw [hs] at h; exact ih t1 t2 t3 h
    | some m =>
      rw [hs] at h
      simp only [Option.some.injEq, Prod.mk.injEq] at h
      obtain ⟨_, h2, h3⟩ := h
      constructor
      · rw [← h2]
        by_cases hc : (!(remainderOf line m).isEmpty &&
            valid_title_candidate (remainderOf line m)) = true
        · have hvalid := (Bool.and_eq_true _ _).mp hc |>.2
          have hne : (remainderOf line m).isEmpty = false := by
            have := (Bool.and_eq_true _ _).mp hc |>.1
            simpa using this
          rw [if_pos hc]
          simp only [hne, Bool.not_false, if_pos]
          right
          exact remainder_not_footer line m hvalid
        · rw [if_neg hc]
          simp only [List.isEmpty_nil, Bool.not_true, Bool.false_eq_true,
            if_false]
          exact hcand (i + 1)
      · rw [← h3]
        exact hcand (i + 2)

/-- Lines produced by `docxParas` are already stripped. -/
theorem docxParas_stripped (texts : List Str) :
    ∀ l ∈ docxParas texts, strip l = l := by
  intro l hl
  unfold docxParas at hl
  rcases List.mem_filter.mp hl with ⟨hl2, _⟩
  rcases List.mem_filter.mp hl2 with ⟨hl3, _⟩
  rcases List.mem_map.mp hl3 with ⟨x, _, hx⟩
  rw [← hx]
  exact strip_idem x

/-- C7 counterexample: the PDF extractor scans unfiltered lines and takes
Title-1 verbatim from the matched token, so the noise-classified input
line `"Table 3draft"` (it contains "draft") comes back as Title-1. -/
theorem pdf_title1_noise_cex :
    is_footer_content "Table 3draft".data = true ∧
    (pdfCore ["Table 3draft".data] "f.pdf".data).1 = "Table 3draft".data := by
  decide

/-- C7 amended: on the identifier-match path of all three extractors,
Title-2 and Title-3 are always either empty or validator-cleared, hence
never noise-classified strings (the DOCX loop's raw lookahead needs its
line list stripped, which `docxParas` guarantees); the guarantee does not
extend to Title-1, the raw matched token. -/
theorem match_path_titles_not_noise :
    (∀ (ls : List Str) (t1 t2 t3 : Str),
      rtfMatchLoop ls = some (t1, t2, t3) →
      (t2 = [] ∨ is_footer_content t2 = false) ∧
      (t3 = [] ∨ is_footer_content t3 = false)) ∧
    (∀ (all : List Str) (win : List (Nat × Str)) (t1 t2 t3 : Str),
      pdfMatchLoop all win = some (t1, t2, t3) →
      (t2 = [] ∨ is_footer_content t2 = false) ∧
      (t3 = [] ∨ is_footer_content t3 = false)) ∧
    (∀ (all : List Str) (win : List (Nat × Str)) (t1 t2 t3 : Str),
      (∀ l ∈ all, strip l = l) →
      docxMatchLoop all win = some (t1, t2, t3) →
      (t2 = [] ∨ is_footer_content t2 = false) ∧
      (t3 = [] ∨ is_footer_content t3 = false)) :=
  ⟨rtfMatchLoop_titles_ok, pdfMatchLoop_titles_ok,
   fun all win t1 t2 t3 hstr h =>
     docxMatchLoop_titles_ok all hstr win t1 t2 t3 h⟩

/-- Witness for `match_path_titles_not_noise` at one concrete match per
extractor loop. -/
theorem match_path_titles_not_noise_witness :
    is_footer_content "Summary of subjects".data = false ∧
    is_footer_content "Results of study".data = false ∧
    is_footer_content "Valid second line".data = false := by
  refine ⟨?_, ?_, ?_⟩
  · have h := match_path_titles_not_noise.1
      ["Table 1 Summary of subjects".data] "Table 1".data
      "Summary of subjects".data [] (by decide)
    rcases h.1 with h1 | h1
    · exact absurd h1 (by decide)
    · exact h1
  · have h := match_path_titles_not_noise.2.1
      ["Table 2 Results of study".data]
      [(0, "Table 2 Results of study".data)] "Table 2".data
      "Results of study".data [] (by decide)
    rcases h.1 with h1 | h1
    · exact absurd h1 (by decide)
    · exact h1
  · have h := match_path_titles_not_noise.2.2
      ["Table 3".data, "Valid second line".data] [(0, "Table 3".data)]
      "Table 3".data "Valid second line".data [] (by decide) (by decide)
    rcases h.1 with h1 | h1
    · exact absurd h1 (by decide)
    · exact h1

/-- C6 counterexample: the RTF extractor has no fallback.  On the single
validator-passing candidate line `"Completely Reasonable Title"` with no
identifier anywhere, it returns empty titles and the bare file name
instead of making that line Title-1. -/
theorem rtf_no_fallback_cex :
    valid_title_candidate "Completely Reasonable Title".data = true ∧
    rtfCore ["Completely Reasonable Title".data] "doc1.rtf".data
      = ([], [], [], "doc1.rtf".data) := by decide

/-- C6 amended: when no identifier matches, the RTF extractor returns
empty titles and the bare file name (no fallback); the PDF extractor runs
its fallback over only the first three lines; the DOCX extractor, after
both matching passes fail, runs its fallback over the first fifteen
combined header+body lines. -/
theorem extractor_fallback_amended :
    (∀ (hl : List Str) (basename : Str),
      rtfMatchLoop (hl.filter (fun l => !is_footer_content l)) = none →
      rtfCore hl basename = ([], [], [], basename)) ∧
    (∀ (raw : List Str) (basename : Str),
      pdfMatchLoop (pdfLines raw) (((pdfLines raw).take 20).enum) = none →
      pdfCore raw basename =
        (let st := pdfFallback ((pdfLines raw).take 3) ([], [], [])
         (st.1, st.2.1, st.2.2,
          bookmarkOrBasename st.1 st.2.1 st.2.2 basename))) ∧
    (∀ (headerTexts bodyTexts : List Str) (basename : Str),
      docxMatchLoop (docxParas headerTexts)
          (((docxParas headerTexts).take 10).enum) = none →
      docxMatchLoop (docxParas bodyTexts)
          (((docxParas bodyTexts).take 15).enum) = none →
      docxCore headerTexts bodyTexts basename =
        (let st := docxFallback
            ((docxParas headerTexts ++ docxParas bodyTexts).take 15) 0
            ([], [], [])
         (st.1, st.2.1, st.2.2,
          bookmarkOrBasename st.1 st.2.1 st.2.2 basename))) := by
  refine ⟨?_, ?_, ?_⟩
  · intro hl basename h
    unfold rtfCore
    simp only [h]
  · intro raw basename h
    unfold pdfCore
    simp only [h, List.isEmpty_nil, if_true]
  · intro headerTexts bodyTexts basename h1 h2
    unfold docxCore
    simp only [h1, h2, List.isEmpty_nil, if_true]

/-- Witness for `extractor_fallback_amended` at concrete inputs with no
identifier match. -/
theorem extractor_fallback_amended_witness :
    rtfCore ["Nice readable heading".data] "a.rtf".data
      = ([], [], [], "a.rtf".data) ∧
    pdfCore ["First candidate line".data] "b.pdf".data
      = ("First candidate line".data, [], [], "First candidate line".data) ∧
    docxCore ["HeaderOnly plain text".data] [] "c.docx".data
      = ("HeaderOnly plain text".data, [], [],
         "HeaderOnly plain text".data) := by
  refine ⟨?_, ?_, ?_⟩
  · exact extractor_fallback_amended.1 ["Nice readable heading".data]
      "a.rtf".data (by decide)
  · exact (extractor_fallback_amended.2.1 ["First candidate line".data]
      "b.pdf".data (by decide)).trans (by decide)
  · exact (extractor_fallback_amended.2.2 ["HeaderOnly plain text".data] []
      "c.docx".data (by decide) (by decide)).trans (by decide)

/-- C8: every modelled extraction failure is non-fatal and yields empty
titles with the bare file name as bookmark: a raising read in any of the
three extractors (the `none` input), and an RTF file whose header block
regex finds no match. -/
theorem extraction_failure_returns_filename :
    (∀ name : Str, extract_titles_from_rtf none name = ([], [], [], name)) ∧
    (∀ name : Str, extract_title_from_pdf none name = ([], [], [], name)) ∧
    (∀ name : Str, extract_title_from_docx none name = ([], [], [], name)) ∧
    (∀ (text name : Str), pySearchO headerMatchAt text = none →
      extract_titles_from_rtf (some text) name = ([], [], [], name)) := by
  refine ⟨fun name => rfl, fun name => rfl, fun name => rfl, ?_⟩
  intro text name h
  unfold extract_titles_from_rtf extract_header_lines_with_tablepattern
    extract_groups_from_rtf_header
  simp only [h]
  rfl

/-- Witness for `extraction_failure_returns_filename` on an RTF body with
no header block. -/
theorem extraction_failure_returns_filename_witness :
    extract_titles_from_rtf (some "plain text body".data) "w.rtf".data
      = ([], [], [], "w.rtf".data) :=
  extraction_failure_returns_filename.2.2.2 "plain text body".data
    "w.rtf".data (by decide)

end TLFPack
